import Mathlib

/-!
Shallow embedding of the LCD driver (`lcd.c`) and the D/A driver (`dtoa.c`)
of the EECS 497.34 DtoA project, with theorems settling the specification
claims about them.

Modelling conventions:
* C `char` values are embedded as `Nat` character codes (`48`..`57` are
  the digits `'0'`..`'9'`, `32` is the blank `' '`).
* The bank of LCD data registers `LCDDR0 .. LCDDR17` is embedded as a
  state function `Nat → Nat` mapping the register number `n` to the byte
  held by `LCDDRn`.
* C functions that report an error code and write results through
  pointers are embedded as `Except eErrorType` computations; the
  procedure `LCDWrite`, which mutates the register bank and reports
  failures to `ReportError`, is embedded as a state transformer returning
  the new bank together with the reported error, if any.
* `WriteDtoASample` performs hardware I/O only; it is embedded as the
  trace of hardware events it emits, parametrised by the collision bit
  the two status polls read.
-/

/-- Error classifications of `errors.h` that the LCD driver can produce. -/
inductive eErrorType where
  | LCD_INVALID_CHAR
  | LCD_INVALID_POS
  deriving DecidableEq, Repr

/-- Segment codebook from `lcd.c`: what segments are lit for each digit.
The lowest nibble goes to the lowest LCDDR register of the group, the
highest nibble to the highest. -/
def NumberSegments : List Nat :=
  [0x1551, 0x0110, 0x1E11, 0x1B11, 0x0B50, 0x1B41, 0x1F40, 0x0111, 0x1F51, 0x0B51]

/-- Embedding of `GetLCDDRValues` (`lcd.c`): resolve a character code to
the four register nibbles `(LCDDRx, LCDDRx5, LCDDRx10, LCDDRx15)`.
Digits (codes 48..57) index `NumberSegments` by `index = LCDChar - '0'`
(inlined here); blank (code 32) yields all zero nibbles; anything else
is `LCD_INVALID_CHAR`. -/
def GetLCDDRValues (LCDChar : Nat) : Except eErrorType (Nat × Nat × Nat × Nat) :=
  if 48 ≤ LCDChar ∧ LCDChar ≤ 57 then
    .ok (NumberSegments.getD (LCDChar - 48) 0 &&& 0x000F,
         (NumberSegments.getD (LCDChar - 48) 0 &&& 0x00F0) >>> 4,
         (NumberSegments.getD (LCDChar - 48) 0 &&& 0x0F00) >>> 8,
         (NumberSegments.getD (LCDChar - 48) 0 &&& 0xF000) >>> 12)
  else if LCDChar = 32 then
    .ok (0x00, 0x00, 0x00, 0x00)
  else
    .error .LCD_INVALID_CHAR

/-- Embedding of `GetLCDDRx` (`lcd.c`): resolve a cell position to the
register group index `LCDDRx` and the nibble selector `Nibble`. -/
def GetLCDDRx (CharPosition : Nat) : Except eErrorType (Nat × Nat) :=
  if 2 ≤ CharPosition ∧ CharPosition ≤ 7 then
    .ok ((CharPosition / 2) - 1, CharPosition % 2)
  else
    .error .LCD_INVALID_POS

/-- One read-modify-write body from `LCDWrite`: the four sequential
register assignments of one `switch` branch, writing nibbles
`v0, v5, v10, v15` into registers `a, b, c, d` of the group; `nib = 0`
replaces the low nibble, otherwise the high nibble. -/
def writeFour (s : Nat → Nat) (a b c d : Nat) (nib v0 v5 v10 v15 : Nat) : Nat → Nat :=
  if nib = 0 then
    let s1 := Function.update s a ((s a &&& 0xF0) ||| v0)
    let s2 := Function.update s1 b ((s1 b &&& 0xF0) ||| v5)
    let s3 := Function.update s2 c ((s2 c &&& 0xF0) ||| v10)
    Function.update s3 d ((s3 d &&& 0xF0) ||| v15)
  else
    let s1 := Function.update s a ((s a &&& 0x0F) ||| (v0 <<< 4))
    let s2 := Function.update s1 b ((s1 b &&& 0x0F) ||| (v5 <<< 4))
    let s3 := Function.update s2 c ((s2 c &&& 0x0F) ||| (v10 <<< 4))
    Function.update s3 d ((s3 d &&& 0x0F) ||| (v15 <<< 4))

/-- Embedding of `LCDWrite` (`lcd.c`): resolve position, then character
(short-circuit `&&`, so a failing position check skips character
resolution), then dispatch on the group index: group 0 owns registers
0, 5, 10, 15; group 1 owns 1, 6, 11, 16; group 2 owns 2, 7, 12, 17; the
`default` branch does nothing.  On failure the register bank is untouched
and the error is passed to `ReportError`, modelled by the `Option
eErrorType` component of the result. -/
def LCDWrite (LCDChar : Nat) (Position : Nat) (s : Nat → Nat) :
    (Nat → Nat) × Option eErrorType :=
  match GetLCDDRx Position with
  | .error e => (s, some e)
  | .ok (LCDDRx, Nibble) =>
    match GetLCDDRValues LCDChar with
    | .error e => (s, some e)
    | .ok (v0, v5, v10, v15) =>
      match LCDDRx with
      | 0 => (writeFour s 0 5 10 15 Nibble v0 v5 v10 v15, none)
      | 1 => (writeFour s 1 6 11 16 Nibble v0 v5 v10 v15, none)
      | 2 => (writeFour s 2 7 12 17 Nibble v0 v5 v10 v15, none)
      | _ => (s, none)

/-- Hardware events emitted by the D/A driver (`dtoa.c`), in program
order: drive the chip-select line on PB4 low (select) or high
(deselect), read `SPSR` and test the write-collision bit (`pollStatus`
carries the bit the read observed), print the collision report over the
serial port, store a byte into the SPI data register `SPDR`, and spin on
`SPSR`'s transfer-complete flag until it is set. -/
inductive SPIEvent where
  | assertSelect
  | pollStatus (collision : Bool)
  | reportCollision
  | writeSPDR (b : Nat)
  | waitComplete
  | deassertSelect
  deriving DecidableEq, Repr

/-- Embedding of `WriteDtoASample` (`dtoa.c`) as its hardware event
trace.  `Value` is a C `unsigned int`, 16 bits on the AVR target, so the
left shift by 2 wraps modulo 2^16; the MSB is sent first, then the LSB,
each followed by the transfer-complete wait; the collision poll happens
before the first byte and again between the two bytes, and `coll1`,
`coll2` are the collision bits those two `SPSR` reads observe.  A set
collision bit only adds a serial report; the transfer proceeds
regardless. -/
def WriteDtoASample (Value : Nat) (coll1 coll2 : Bool) : List SPIEvent :=
  let v := (Value <<< 2) % 65536
  [SPIEvent.assertSelect, SPIEvent.pollStatus coll1]
    ++ (if coll1 then [SPIEvent.reportCollision] else [])
    ++ [SPIEvent.writeSPDR ((v >>> 8) % 256), SPIEvent.waitComplete,
        SPIEvent.pollStatus coll2]
    ++ (if coll2 then [SPIEvent.reportCollision] else [])
    ++ [SPIEvent.writeSPDR (v % 256), SPIEvent.waitComplete,
        SPIEvent.deassertSelect]

/-- Recognise a status-register collision poll in a D/A trace. -/
def isPollStatus : SPIEvent → Bool
  | .pollStatus _ => true
  | _ => false

/-- Drop the events of a D/A trace up to and including the first SPI
data-register write; the result is what happens strictly after that
byte transfer starts. -/
def dropThroughWrite : List SPIEvent → List SPIEvent
  | [] => []
  | .writeSPDR _ :: rest => rest
  | _ :: rest => dropThroughWrite rest

/-- The bytes stored into `SPDR` along a D/A trace, in order. -/
def writesOf (tr : List SPIEvent) : List Nat :=
  tr.filterMap fun e => match e with
    | .writeSPDR b => some b
    | _ => none

/-- Recognise the serial collision report in a D/A trace. -/
def isReport : SPIEvent → Bool
  | .reportCollision => true
  | _ => false

/-- Bit number of the SPI transfer-complete flag `SPIF` in `SPSR`
(`avr/io.h`, ATmega169: bit 7).  The termination theorem below does not
depend on this value. -/
def SPIF : Nat := 7

/-- Embedding of the busy-wait loop `while(!(SPSR & (1 << SPIF)));` of
`WriteDtoASample` (`dtoa.c` lines 133 and 144).  `spsr k` is the value
the k-th read of the status register returns; the loop spins while the
flag bit is clear.  Fuel bounds the number of reads we unfold; `some k`
means the loop exited after its read number `k` saw the flag set. -/
def txWaitLoop (spsr : Nat → Nat) : Nat → Option Nat
  | 0 => none
  | fuel + 1 =>
    if spsr 0 &&& (1 <<< SPIF) = 0 then
      Option.map Nat.succ (txWaitLoop (fun k => spsr (k + 1)) fuel)
    else
      some 0

/-- One register assignment of `LCDWrite`, seen pointwise: replace the
low nibble (`nib = 0`) or the high nibble (otherwise) of the old byte
with `v`. -/
def nibbleWrite (nib old v : Nat) : Nat :=
  if nib = 0 then (old &&& 0xF0) ||| v else (old &&& 0x0F) ||| (v <<< 4)

/-- Masking a low-nibble write back with `0xF0` recovers the untouched
high-nibble bits, provided the written value is a nibble. -/
lemma and240_or_lt16 (x n : Nat) (h : n < 16) :
    ((x &&& 0xF0) ||| n) &&& 0xF0 = x &&& 0xF0 := by
  apply Nat.eq_of_testBit_eq
  intro i
  rcases Nat.lt_or_ge i 4 with h4 | h4
  · have h240 : Nat.testBit 0xF0 i = false := by interval_cases i <;> decide
    simp [Nat.testBit_and, Nat.testBit_or, h240]
  · have hpow : (2:Nat) ^ 4 ≤ 2 ^ i := Nat.pow_le_pow_right (by norm_num) h4
    norm_num at hpow
    have hn : n.testBit i = false := Nat.testBit_lt_two_pow (by omega)
    simp only [Nat.testBit_and, Nat.testBit_or, hn, Bool.or_false]
    cases x.testBit i <;> cases Nat.testBit 0xF0 i <;> simp

/-- Masking a high-nibble write back with `0x0F` recovers the untouched
low-nibble bits. -/
lemma and15_or_shl (x n : Nat) :
    ((x &&& 0x0F) ||| (n <<< 4)) &&& 0x0F = x &&& 0x0F := by
  apply Nat.eq_of_testBit_eq
  intro i
  rcases Nat.lt_or_ge i 4 with h4 | h4
  · have hs : (n <<< 4).testBit i = false := by
      rw [Nat.testBit_shiftLeft]
      simp [Nat.not_le.mpr h4]
    simp [Nat.testBit_and, Nat.testBit_or, hs]
  · have h15 : Nat.testBit 0x0F i = false :=
      Nat.testBit_lt_two_pow (lt_of_lt_of_le (by norm_num) (Nat.pow_le_pow_right (by norm_num) h4))
    simp [Nat.testBit_and, h15]

/-- A second nibble write to the same half of a byte fully overwrites a
first one, provided the first value was a genuine nibble. -/
lemma nibbleWrite_absorb (nib x u v : Nat) (hu : u < 16) :
    nibbleWrite nib (nibbleWrite nib x u) v = nibbleWrite nib x v := by
  unfold nibbleWrite
  by_cases hn : nib = 0 <;> simp [hn, and240_or_lt16 _ _ hu, and15_or_shl]

/-- Masking with `m` and shifting right like `GetLCDDRValues` does
yields a nibble as soon as the mask itself shifts down to a nibble. -/
lemma mask_shr_lt16 (x m k : Nat) (h : m >>> k < 16) : (x &&& m) >>> k < 16 := by
  have hle : (x &&& m) >>> k ≤ m >>> k := by
    simp only [Nat.shiftRight_eq_div_pow]
    exact Nat.div_le_div_right Nat.and_le_right
  omega

/-- The four values `GetLCDDRValues` resolves a character to are
nibbles. -/
lemma GetLCDDRValues_ok_lt16 (c v0 v5 v10 v15 : Nat)
    (h : GetLCDDRValues c = .ok (v0, v5, v10, v15)) :
    v0 < 16 ∧ v5 < 16 ∧ v10 < 16 ∧ v15 < 16 := by
  unfold GetLCDDRValues at h
  by_cases h1 : 48 ≤ c ∧ c ≤ 57
  · rw [if_pos h1] at h
    simp only [Except.ok.injEq, Prod.mk.injEq] at h
    obtain ⟨e0, e5, e10, e15⟩ := h
    subst e0; subst e5; subst e10; subst e15
    refine ⟨?_, ?_, ?_, ?_⟩
    · exact mask_shr_lt16 _ 0x000F 0 (by decide)
    · exact mask_shr_lt16 _ 0x00F0 4 (by decide)
    · exact mask_shr_lt16 _ 0x0F00 8 (by decide)
    · exact mask_shr_lt16 _ 0xF000 12 (by decide)
  · rw [if_neg h1] at h
    by_cases h2 : c = 32
    · rw [if_pos h2] at h
      simp only [Except.ok.injEq, Prod.mk.injEq] at h
      omega
    · rw [if_neg h2] at h
      exact absurd h (by simp)

/-- Character codes outside the digits and the blank make
`GetLCDDRValues` fail with `LCD_INVALID_CHAR`. -/
lemma GetLCDDRValues_invalid (c : Nat) (h : ¬((48 ≤ c ∧ c ≤ 57) ∨ c = 32)) :
    GetLCDDRValues c = .error .LCD_INVALID_CHAR := by
  have hd : ¬(48 ≤ c ∧ c ≤ 57) := fun hc => h (Or.inl hc)
  have hb : ¬(c = 32) := fun hc => h (Or.inr hc)
  unfold GetLCDDRValues
  rw [if_neg hd, if_neg hb]

/-- Pointwise evaluation of one `switch` branch of `LCDWrite`: with the
four register numbers pairwise distinct, the sequential
read-modify-writes act independently on the four registers and leave
every other register alone. -/
lemma writeFour_eval (s : Nat → Nat) (a b c d nib v0 v5 v10 v15 : Nat)
    (hab : a ≠ b) (hac : a ≠ c) (had : a ≠ d)
    (hbc : b ≠ c) (hbd : b ≠ d) (hcd : c ≠ d) :
    writeFour s a b c d nib v0 v5 v10 v15 = fun j =>
      if j = a then nibbleWrite nib (s a) v0
      else if j = b then nibbleWrite nib (s b) v5
      else if j = c then nibbleWrite nib (s c) v10
      else if j = d then nibbleWrite nib (s d) v15
      else s j := by
  have hba := Ne.symm hab
  have hca := Ne.symm hac
  have hda := Ne.symm had
  have hcb := Ne.symm hbc
  have hdb := Ne.symm hbd
  have hdc := Ne.symm hcd
  funext j
  rcases eq_or_ne j a with rfl | hja
  · simp [writeFour, nibbleWrite, Function.update_apply, ite_apply, apply_ite,
      hab, hac, had, hbc, hbd, hcd, hba, hca, hda, hcb, hdb, hdc]
    split_ifs with h <;> simp_all
  rcases eq_or_ne j b with rfl | hjb
  · simp [writeFour, nibbleWrite, Function.update_apply, ite_apply, apply_ite,
      hab, hac, had, hbc, hbd, hcd, hba, hca, hda, hcb, hdb, hdc, hja]
    split_ifs with h <;> simp_all
  rcases eq_or_ne j c with rfl | hjc
  · simp [writeFour, nibbleWrite, Function.update_apply, ite_apply, apply_ite,
      hab, hac, had, hbc, hbd, hcd, hba, hca, hda, hcb, hdb, hdc, hja, hjb]
    split_ifs with h <;> simp_all
  rcases eq_or_ne j d with rfl | hjd
  · simp [writeFour, nibbleWrite, Function.update_apply, ite_apply, apply_ite,
      hab, hac, had, hbc, hbd, hcd, hba, hca, hda, hcb, hdb, hdc, hja, hjb, hjc]
    split_ifs with h <;> simp_all
  · simp only [writeFour, ite_apply, Function.update_apply]
    simp [hja, hjb, hjc, hjd]

/-- Repeating a `switch`-branch write to the same four registers with
the same nibble selector fully overwrites the first write, as long as
the first write stored genuine nibbles. -/
lemma writeFour_absorb (s : Nat → Nat) (a b c d nib u0 u5 u10 u15 v0 v5 v10 v15 : Nat)
    (hab : a ≠ b) (hac : a ≠ c) (had : a ≠ d)
    (hbc : b ≠ c) (hbd : b ≠ d) (hcd : c ≠ d)
    (hu0 : u0 < 16) (hu5 : u5 < 16) (hu10 : u10 < 16) (hu15 : u15 < 16) :
    writeFour (writeFour s a b c d nib u0 u5 u10 u15) a b c d nib v0 v5 v10 v15 =
      writeFour s a b c d nib v0 v5 v10 v15 := by
  have hba := Ne.symm hab
  have hca := Ne.symm hac
  have hda := Ne.symm had
  have hcb := Ne.symm hbc
  have hdb := Ne.symm hbd
  have hdc := Ne.symm hcd
  rw [writeFour_eval s a b c d nib v0 v5 v10 v15 hab hac had hbc hbd hcd,
      writeFour_eval s a b c d nib u0 u5 u10 u15 hab hac had hbc hbd hcd,
      writeFour_eval _ a b c d nib v0 v5 v10 v15 hab hac had hbc hbd hcd]
  funext j
  rcases eq_or_ne j a with rfl | hja
  · simp [hab, hac, had, nibbleWrite_absorb _ _ _ _ hu0]
  rcases eq_or_ne j b with rfl | hjb
  · simp [hba, hbc, hbd, nibbleWrite_absorb _ _ _ _ hu5]
  rcases eq_or_ne j c with rfl | hjc
  · simp [hca, hcb, hcd, nibbleWrite_absorb _ _ _ _ hu10]
  rcases eq_or_ne j d with rfl | hjd
  · simp [hda, hdb, hdc, nibbleWrite_absorb _ _ _ _ hu15]
  · simp [hja, hjb, hjc, hjd]

/-- Claim C2: for every digit d in 0..9 the segment table resolution
returns exactly the nibbles (bits [3:0], [7:4], [11:8], [15:12]) of the
fixed codebook entry 0x1551, 0x0110, 0x1E11, 0x1B11, 0x0B50, 0x1B41,
0x1F40, 0x0111, 0x1F51, 0x0B51, and the blank character (code 32)
resolves to the all-zero pattern. -/
theorem claim_C2_segment_table :
    GetLCDDRValues 48 =
      .ok (0x1551 &&& 0xF, 0x1551 >>> 4 &&& 0xF, 0x1551 >>> 8 &&& 0xF, 0x1551 >>> 12 &&& 0xF) ∧
    GetLCDDRValues 49 =
      .ok (0x0110 &&& 0xF, 0x0110 >>> 4 &&& 0xF, 0x0110 >>> 8 &&& 0xF, 0x0110 >>> 12 &&& 0xF) ∧
    GetLCDDRValues 50 =
      .ok (0x1E11 &&& 0xF, 0x1E11 >>> 4 &&& 0xF, 0x1E11 >>> 8 &&& 0xF, 0x1E11 >>> 12 &&& 0xF) ∧
    GetLCDDRValues 51 =
      .ok (0x1B11 &&& 0xF, 0x1B11 >>> 4 &&& 0xF, 0x1B11 >>> 8 &&& 0xF, 0x1B11 >>> 12 &&& 0xF) ∧
    GetLCDDRValues 52 =
      .ok (0x0B50 &&& 0xF, 0x0B50 >>> 4 &&& 0xF, 0x0B50 >>> 8 &&& 0xF, 0x0B50 >>> 12 &&& 0xF) ∧
    GetLCDDRValues 53 =
      .ok (0x1B41 &&& 0xF, 0x1B41 >>> 4 &&& 0xF, 0x1B41 >>> 8 &&& 0xF, 0x1B41 >>> 12 &&& 0xF) ∧
    GetLCDDRValues 54 =
      .ok (0x1F40 &&& 0xF, 0x1F40 >>> 4 &&& 0xF, 0x1F40 >>> 8 &&& 0xF, 0x1F40 >>> 12 &&& 0xF) ∧
    GetLCDDRValues 55 =
      .ok (0x0111 &&& 0xF, 0x0111 >>> 4 &&& 0xF, 0x0111 >>> 8 &&& 0xF, 0x0111 >>> 12 &&& 0xF) ∧
    GetLCDDRValues 56 =
      .ok (0x1F51 &&& 0xF, 0x1F51 >>> 4 &&& 0xF, 0x1F51 >>> 8 &&& 0xF, 0x1F51 >>> 12 &&& 0xF) ∧
    GetLCDDRValues 57 =
      .ok (0x0B51 &&& 0xF, 0x0B51 >>> 4 &&& 0xF, 0x0B51 >>> 8 &&& 0xF, 0x0B51 >>> 12 &&& 0xF) ∧
    GetLCDDRValues 32 = .ok (0x0000, 0x0000, 0x0000, 0x0000) :=
  ⟨rfl, rfl, rfl, rfl, rfl, rfl, rfl, rfl, rfl, rfl, rfl⟩

/-- Claim C4: for every position p in [2,7] the position resolver
succeeds with group index (p/2)-1 and nibble selector p mod 2, and for
every p outside [2,7] it fails with `LCD_INVALID_POS`. -/
theorem claim_C4_position_resolver (p : Nat) :
    (2 ≤ p ∧ p ≤ 7 → GetLCDDRx p = .ok ((p / 2) - 1, p % 2)) ∧
    (¬(2 ≤ p ∧ p ≤ 7) → GetLCDDRx p = .error .LCD_INVALID_POS) := by
  constructor <;> intro h <;> simp [GetLCDDRx, h]

/-- Witness for C4 at the concrete positions 5 (valid) and 9
(invalid). -/
theorem claim_C4_witness :
    GetLCDDRx 5 = .ok ((5 / 2) - 1, 5 % 2) ∧ GetLCDDRx 9 = .error .LCD_INVALID_POS :=
  ⟨(claim_C4_position_resolver 5).1 (by decide), (claim_C4_position_resolver 9).2 (by decide)⟩

/-- Claim C8: whenever the position resolver succeeds, the group index
it returns is 0, 1 or 2, so the `default` branch of the group-dispatch
`switch` in `LCDWrite` is unreachable after a successful resolution. -/
theorem claim_C8_group_range (p g nib : Nat) (h : GetLCDDRx p = .ok (g, nib)) :
    g = 0 ∨ g = 1 ∨ g = 2 := by
  unfold GetLCDDRx at h
  by_cases hp : 2 ≤ p ∧ p ≤ 7
  · rw [if_pos hp] at h
    simp only [Except.ok.injEq, Prod.mk.injEq] at h
    omega
  · rw [if_neg hp] at h
    exact absurd h (by simp)

/-- Witness for C8 at position 7, whose resolution is group 2, high
nibble. -/
theorem claim_C8_witness :
    GetLCDDRx 7 = .ok (2, 1) ∧ ((2:Nat) = 0 ∨ (2:Nat) = 1 ∨ (2:Nat) = 2) :=
  ⟨rfl, claim_C8_group_range 7 2 1 rfl⟩

/-- Claim C1: a valid `LCDWrite` call at position p (2..7) with a
character that resolves to nibbles (v0, v5, v10, v15) reports no error,
replaces in each of the four registers g, g+5, g+10, g+15 of group
g = p/2 - 1 exactly the nibble selected by p's parity
(`nibbleWrite (p % 2) old v` is `(old &&& 0xF0) ||| v` for even p and
`(old &&& 0x0F) ||| (v <<< 4)` for odd p), and leaves every register
outside the group byte-for-byte unchanged. -/
theorem claim_C1_write_frame (c p : Nat) (s : Nat → Nat) (v0 v5 v10 v15 : Nat)
    (hp : 2 ≤ p ∧ p ≤ 7) (hc : GetLCDDRValues c = .ok (v0, v5, v10, v15)) :
    (LCDWrite c p s).2 = none ∧
    (LCDWrite c p s).1 (p / 2 - 1) = nibbleWrite (p % 2) (s (p / 2 - 1)) v0 ∧
    (LCDWrite c p s).1 (p / 2 - 1 + 5) = nibbleWrite (p % 2) (s (p / 2 - 1 + 5)) v5 ∧
    (LCDWrite c p s).1 (p / 2 - 1 + 10) = nibbleWrite (p % 2) (s (p / 2 - 1 + 10)) v10 ∧
    (LCDWrite c p s).1 (p / 2 - 1 + 15) = nibbleWrite (p % 2) (s (p / 2 - 1 + 15)) v15 ∧
    ∀ j, j ≠ p / 2 - 1 → j ≠ p / 2 - 1 + 5 → j ≠ p / 2 - 1 + 10 → j ≠ p / 2 - 1 + 15 →
      (LCDWrite c p s).1 j = s j := by
  obtain ⟨hp2, hp7⟩ := hp
  interval_cases p <;>
    (simp [LCDWrite, GetLCDDRx, hc, writeFour_eval, nibbleWrite];
     intro j h1 h2 h3 h4;
     simp [h1, h2, h3, h4])

/-- Witness for C1: writing '3' (code 51, nibbles 1, 1, 11, 1) at
position 4 on the all-0xFF bank. -/
theorem claim_C1_witness :
    (2 ≤ 4 ∧ 4 ≤ 7) ∧ GetLCDDRValues 51 = .ok (1, 1, 11, 1) ∧
    ((LCDWrite 51 4 (fun _ => 0xFF)).2 = none ∧
     (LCDWrite 51 4 (fun _ => 0xFF)).1 (4 / 2 - 1) =
       nibbleWrite (4 % 2) ((fun _ => 0xFF) (4 / 2 - 1)) 1 ∧
     (LCDWrite 51 4 (fun _ => 0xFF)).1 (4 / 2 - 1 + 5) =
       nibbleWrite (4 % 2) ((fun _ => 0xFF) (4 / 2 - 1 + 5)) 1 ∧
     (LCDWrite 51 4 (fun _ => 0xFF)).1 (4 / 2 - 1 + 10) =
       nibbleWrite (4 % 2) ((fun _ => 0xFF) (4 / 2 - 1 + 10)) 11 ∧
     (LCDWrite 51 4 (fun _ => 0xFF)).1 (4 / 2 - 1 + 15) =
       nibbleWrite (4 % 2) ((fun _ => 0xFF) (4 / 2 - 1 + 15)) 1 ∧
     ∀ j, j ≠ 4 / 2 - 1 → j ≠ 4 / 2 - 1 + 5 → j ≠ 4 / 2 - 1 + 10 → j ≠ 4 / 2 - 1 + 15 →
       (LCDWrite 51 4 (fun _ => 0xFF)).1 j = (fun _ => 0xFF) j) :=
  ⟨by decide, rfl, claim_C1_write_frame 51 4 (fun _ => 0xFF) 1 1 11 1 (by decide) rfl⟩

/-- Claim C3: an `LCDWrite` call with an invalid position (outside
[2,7]) or an invalid character (outside the digits and blank) reports
the corresponding error — `LCD_INVALID_POS` when the position is bad,
otherwise `LCD_INVALID_CHAR` — and performs no register write: the bank
is returned byte-for-byte unchanged. -/
theorem claim_C3_invalid_no_write (c p : Nat) (s : Nat → Nat)
    (h : ¬(2 ≤ p ∧ p ≤ 7) ∨ ¬((48 ≤ c ∧ c ≤ 57) ∨ c = 32)) :
    (LCDWrite c p s).1 = s ∧
    (LCDWrite c p s).2 =
      some (if 2 ≤ p ∧ p ≤ 7 then eErrorType.LCD_INVALID_CHAR
            else eErrorType.LCD_INVALID_POS) := by
  by_cases hp : 2 ≤ p ∧ p ≤ 7
  · rcases h with h | h
    · exact absurd hp h
    · have hchar := GetLCDDRValues_invalid c h
      have hpos : GetLCDDRx p = .ok ((p / 2) - 1, p % 2) := by simp [GetLCDDRx, hp]
      rw [if_pos hp]
      constructor <;> simp [LCDWrite, hpos, hchar]
  · have hpos : GetLCDDRx p = .error .LCD_INVALID_POS := by simp [GetLCDDRx, hp]
    rw [if_neg hp]
    constructor <;> simp [LCDWrite, hpos]

/-- Witness for C3: writing the invalid character 'A' (code 65) at the
valid position 3 reports `LCD_INVALID_CHAR` and leaves the zero bank
untouched. -/
theorem claim_C3_witness :
    (LCDWrite 65 3 (fun _ => 0)).1 = (fun _ => 0) ∧
    (LCDWrite 65 3 (fun _ => 0)).2 =
      some (if 2 ≤ 3 ∧ 3 ≤ 7 then eErrorType.LCD_INVALID_CHAR
            else eErrorType.LCD_INVALID_POS) :=
  claim_C3_invalid_no_write 65 3 (fun _ => 0) (Or.inr (by decide))

/-- Claim C10: when both the position and the character are invalid,
the short-circuit `&&` in `LCDWrite` runs the position check first, so
the single reported error is `LCD_INVALID_POS`, never
`LCD_INVALID_CHAR`, and the bank is unchanged. -/
theorem claim_C10_position_error_first (c p : Nat) (s : Nat → Nat)
    (hp : ¬(2 ≤ p ∧ p ≤ 7)) (_hc : ¬((48 ≤ c ∧ c ≤ 57) ∨ c = 32)) :
    (LCDWrite c p s).2 = some .LCD_INVALID_POS ∧ (LCDWrite c p s).1 = s := by
  have hpos : GetLCDDRx p = .error .LCD_INVALID_POS := by simp [GetLCDDRx, hp]
  constructor <;> simp [LCDWrite, hpos]

/-- Witness for C10: character 'A' (code 65) at position 9, both
invalid; the reported error is the position one. -/
theorem claim_C10_witness :
    (LCDWrite 65 9 (fun _ => 0)).2 = some .LCD_INVALID_POS ∧
    (LCDWrite 65 9 (fun _ => 0)).1 = (fun _ => 0) :=
  claim_C10_position_error_first 65 9 (fun _ => 0) (by decide) (by decide)

/-- Claim C6: at a valid position, writing character c1 and then
character c2 leaves the register bank exactly as writing only c2 would
have: the second write fully replaces every bit of the owned nibble in
each of the group's four registers, with no residual bits from c1's
pattern. -/
theorem claim_C6_overwrite (c1 c2 p : Nat) (s : Nat → Nat)
    (u0 u5 u10 u15 v0 v5 v10 v15 : Nat)
    (hp : 2 ≤ p ∧ p ≤ 7)
    (hc1 : GetLCDDRValues c1 = .ok (u0, u5, u10, u15))
    (hc2 : GetLCDDRValues c2 = .ok (v0, v5, v10, v15)) :
    (LCDWrite c2 p (LCDWrite c1 p s).1).1 = (LCDWrite c2 p s).1 := by
  obtain ⟨hu0, hu5, hu10, hu15⟩ := GetLCDDRValues_ok_lt16 _ _ _ _ _ hc1
  obtain ⟨hp2, hp7⟩ := hp
  interval_cases p <;>
    (simp [LCDWrite, GetLCDDRx, hc1, hc2];
     apply writeFour_absorb <;> first | assumption | decide)

/-- Witness for C6: the spec's overwrite example, '8' (code 56, pattern
0x1F51) then blank (code 32) written at position 4 on the zero bank. -/
theorem claim_C6_witness :
    (LCDWrite 32 4 (LCDWrite 56 4 (fun _ => 0)).1).1 = (LCDWrite 32 4 (fun _ => 0)).1 :=
  claim_C6_overwrite 56 32 4 (fun _ => 0) 1 5 15 1 0 0 0 0 (by decide) rfl rfl

/-- Claim C7: `LCDWrite` is idempotent on the register bank — for every
character, position and initial bank, writing twice with identical
arguments yields the same bank as writing once, with no accumulation of
bits; this also covers invalid arguments, where both calls leave the
bank untouched. -/
theorem claim_C7_idempotent (c p : Nat) (s : Nat → Nat) :
    (LCDWrite c p (LCDWrite c p s).1).1 = (LCDWrite c p s).1 := by
  by_cases hp : 2 ≤ p ∧ p ≤ 7
  · by_cases hcv : (48 ≤ c ∧ c ≤ 57) ∨ c = 32
    · obtain ⟨v0, v5, v10, v15, hc⟩ :
          ∃ v0 v5 v10 v15, GetLCDDRValues c = .ok (v0, v5, v10, v15) := by
        rcases hcv with h | h
        · exact ⟨_, _, _, _, by unfold GetLCDDRValues; rw [if_pos h]⟩
        · subst h
          exact ⟨0, 0, 0, 0, rfl⟩
      obtain ⟨hv0, hv5, hv10, hv15⟩ := GetLCDDRValues_ok_lt16 _ _ _ _ _ hc
      obtain ⟨hp2, hp7⟩ := hp
      interval_cases p <;>
        (simp [LCDWrite, GetLCDDRx, hc];
         apply writeFour_absorb <;> first | assumption | decide)
    · have hchar := GetLCDDRValues_invalid c hcv
      have hpos : GetLCDDRx p = .ok ((p / 2) - 1, p % 2) := by simp [GetLCDDRx, hp]
      simp [LCDWrite, hpos, hchar]
  · have hpos : GetLCDDRx p = .error .LCD_INVALID_POS := by simp [GetLCDDRx, hp]
    simp [LCDWrite, hpos]

/-- Counterexample to C5 as stated: the claim requires a collision poll
before and after each of the two byte transfers, in particular one
after the second transfer; but in the trace of `WriteDtoASample` at
sample 0 (with collisions observed at both polls) nothing after the
second `SPDR` write is a status poll, and the whole trace holds only
two polls, not the at least three the claim demands. -/
theorem claim_C5_counterexample :
    (dropThroughWrite (dropThroughWrite (WriteDtoASample 0 true true))).countP
      isPollStatus = 0 ∧
    (WriteDtoASample 0 true true).countP isPollStatus = 2 := by
  decide

/-- Claim C5 as amended: for a 12-bit sample, `WriteDtoASample` shifts
it left by 2, asserts the select line first and deasserts it last,
transfers the most-significant byte of the shifted value first and the
least-significant byte second, waits for the transfer-complete flag
directly after each byte, reports a collision exactly when the
corresponding poll reads the fault bit (and proceeds regardless), and
polls the status flag exactly twice: once before the first byte
transfer and once between the two transfers — not after the second. -/
theorem claim_C5_dtoa_protocol (v : Nat) (c1 c2 : Bool) (hv : v < 4096) :
    (WriteDtoASample v c1 c2).head? = some SPIEvent.assertSelect ∧
    (WriteDtoASample v c1 c2).getLast? = some SPIEvent.deassertSelect ∧
    writesOf (WriteDtoASample v c1 c2) = [4 * v / 256, 4 * v % 256] ∧
    (WriteDtoASample v c1 c2).countP isPollStatus = 2 ∧
    (WriteDtoASample v c1 c2).countP isReport =
      (if c1 then 1 else 0) + (if c2 then 1 else 0) ∧
    (dropThroughWrite (WriteDtoASample v c1 c2)).head? = some SPIEvent.waitComplete ∧
    (dropThroughWrite (WriteDtoASample v c1 c2)).countP isPollStatus = 1 ∧
    dropThroughWrite (dropThroughWrite (WriteDtoASample v c1 c2)) =
      [SPIEvent.waitComplete, SPIEvent.deassertSelect] := by
  have h1 : (((v <<< 2) % 65536) >>> 8) % 256 = 4 * v / 256 := by
    rw [Nat.shiftLeft_eq, Nat.shiftRight_eq_div_pow]
    show v * 4 % 65536 / 256 % 256 = 4 * v / 256
    omega
  have h2 : ((v <<< 2) % 65536) % 256 = 4 * v % 256 := by
    rw [Nat.shiftLeft_eq]
    show v * 4 % 65536 % 256 = 4 * v % 256
    omega
  cases c1 <;> cases c2 <;>
    simp [WriteDtoASample, writesOf, dropThroughWrite, isPollStatus, isReport, h1, h2]

/-- Witness for C5 (amended) at sample 700 with a collision observed at
the first poll only. -/
theorem claim_C5_witness :
    (WriteDtoASample 700 true false).head? = some SPIEvent.assertSelect ∧
    (WriteDtoASample 700 true false).getLast? = some SPIEvent.deassertSelect ∧
    writesOf (WriteDtoASample 700 true false) = [4 * 700 / 256, 4 * 700 % 256] ∧
    (WriteDtoASample 700 true false).countP isPollStatus = 2 ∧
    (WriteDtoASample 700 true false).countP isReport =
      (if true then 1 else 0) + (if false then 1 else 0) ∧
    (dropThroughWrite (WriteDtoASample 700 true false)).head? =
      some SPIEvent.waitComplete ∧
    (dropThroughWrite (WriteDtoASample 700 true false)).countP isPollStatus = 1 ∧
    dropThroughWrite (dropThroughWrite (WriteDtoASample 700 true false)) =
      [SPIEvent.waitComplete, SPIEvent.deassertSelect] :=
  claim_C5_dtoa_protocol 700 true false (by decide)

/-- Claim C9: each busy-wait `while(!(SPSR & (1 << SPIF)));` in the D/A
sample write is a bounded spin, not an indefinite block: as soon as the
hardware sets the transfer-complete flag by the N-th status read, the
loop exits at the first read that sees the flag, after at most N
iterations. -/
theorem claim_C9_wait_terminates (spsr : Nat → Nat) (N : Nat)
    (h : ∃ n, n ≤ N ∧ spsr n &&& (1 <<< SPIF) ≠ 0) :
    ∃ k, k ≤ N ∧ txWaitLoop spsr (N + 1) = some k ∧ spsr k &&& (1 <<< SPIF) ≠ 0 := by
  induction N generalizing spsr with
  | zero =>
    obtain ⟨n, hn, hflag⟩ := h
    obtain rfl : n = 0 := Nat.le_zero.mp hn
    exact ⟨0, Nat.le_refl 0, by simp [txWaitLoop, hflag], hflag⟩
  | succ N ih =>
    by_cases h0 : spsr 0 &&& (1 <<< SPIF) = 0
    · obtain ⟨n, hn, hflag⟩ := h
      have hn0 : n ≠ 0 := by
        intro e
        subst e
        exact hflag h0
      obtain ⟨m, rfl⟩ : ∃ m, n = m + 1 := ⟨n - 1, by omega⟩
      obtain ⟨k, hk, hloop, hkflag⟩ := ih (fun k => spsr (k + 1)) ⟨m, by omega, hflag⟩
      refine ⟨k + 1, by omega, ?_, hkflag⟩
      show (if spsr 0 &&& (1 <<< SPIF) = 0 then
              Option.map Nat.succ (txWaitLoop (fun k => spsr (k + 1)) (N + 1))
            else some 0) = some (k + 1)
      rw [if_pos h0, hloop]
      rfl
    · exact ⟨0, Nat.zero_le _, by simp [txWaitLoop, h0], h0⟩

/-- Witness for C9: a status stream whose third read (index 2) has the
flag set; the loop exits exactly there. -/
theorem claim_C9_witness :
    ∃ k, k ≤ 2 ∧
      txWaitLoop (fun n => if n = 2 then 0x80 else 0) (2 + 1) = some k ∧
      (fun n : Nat => if n = 2 then 0x80 else 0) k &&& (1 <<< SPIF) ≠ 0 :=
  claim_C9_wait_terminates (fun n => if n = 2 then 0x80 else 0) 2
    ⟨2, by decide, by decide⟩
